import Mathlib

/-!
Verification development for the batch transfer tool (src/index.ts).

The file gives a shallow embedding of the two core functions of the
repository, `generateTransactions` and `executeTransactions`, and proves
the specification claims about them.

Modelling conventions:
* JS numbers used as counts or block heights become `Nat`; the batch
  capacity becomes `Int` because the source never validates it and the
  claims quantify over zero and negative capacities.
* A thrown/rejected JS value becomes `Except JsError`; `JsError` keeps
  exactly the properties the source inspects (`name`, `signature`,
  `message`), each `Option`-valued to model property absence.
* The network (`Connection`, `sendAndConfirmTransaction`) is an oracle
  `NetEnv` giving, per attempt, the result of each awaited call; runs also
  return the ordered list of network calls made (`NetEvent` trace).
-/

namespace Marek

/-- Constant imported from the Solana client library: base units per SOL. -/
def LAMPORTS_PER_SOL : Nat := 1000000000

/-- The `Drop` interface of src/index.ts (lines 15-18). -/
structure Drop where
  owner : String
  address : String
deriving DecidableEq

/-- A `SystemProgram.transfer` instruction as built at src/index.ts lines 30-34. -/
structure TransferInstruction where
  fromPubkey : String
  toPubkey : String
  lamports : Nat
deriving DecidableEq

/-- A `Transaction` is modelled by the ordered instructions added to it.
The `recentBlockhash` mutation in `executeTransactions` does not influence
any observable of the claims and is absorbed by the network oracle. -/
structure Transaction where
  instructions : List TransferInstruction
deriving DecidableEq

/-- The instruction built for one drop (src/index.ts lines 29-35):
transfer of `amount * LAMPORTS_PER_SOL` lamports from the payer wallet to
the public key parsed from the `owner` field of the drop. -/
def dropInstruction (fromWallet : String) (amount : Nat) (drop : Drop) : TransferInstruction :=
  { fromPubkey := fromWallet, toPubkey := drop.owner, lamports := amount * LAMPORTS_PER_SOL }

/-- Iteration count of the outer loop of `generateTransactions`
(src/index.ts line 37): `Math.ceil(txInstructions.length / batchSize)`
under JS float semantics.  For a positive capacity this is the usual
ceiling.  For a negative capacity the ceiling is non-positive, so the
loop runs zero times.  For capacity 0: an empty list gives `NaN` (loop
runs zero times), a non-empty list gives `Infinity`, i.e. the loop never
terminates; `none` models that non-termination. -/
def numTransactionsFor (len : Nat) (batchSize : Int) : Option Nat :=
  if 0 < batchSize then some ((len + batchSize.toNat - 1) / batchSize.toNat)
  else if len = 0 then some 0
  else if batchSize < 0 then some 0
  else none

/-- Inner loop of `generateTransactions` (src/index.ts lines 40-44): for
`j` from `i * batchSize` to `(i + 1) * batchSize - 1`, add
`txInstructions[j]` when it exists (`if (txInstructions[j])`). -/
def batchChunk (instrs : List TransferInstruction) (c i : Nat) : List TransferInstruction :=
  (List.range c).filterMap fun j => instrs[i * c + j]?

/-- Shallow embedding of `generateTransactions` (src/index.ts lines 27-48).
`none` models the non-terminating loop reached when `batchSize = 0` and
the drop list is non-empty; in every other case the source returns the
value embedded here. -/
def generateTransactions (batchSize : Int) (dropList : List Drop) (fromWallet : String)
    (amount : Nat) : Option (List Transaction) :=
  let txInstructions := dropList.map (dropInstruction fromWallet amount)
  match numTransactionsFor txInstructions.length batchSize with
  | none => none
  | some numTransactions =>
      some ((List.range numTransactions).map fun i =>
        { instructions := batchChunk txInstructions batchSize.toNat i })

/-! ### Chunking lemmas for the batcher -/

lemma filterMap_range_get (l : List TransferInstruction) (c s : Nat) :
    ((List.range c).filterMap fun j => l[s + j]?) = (l.drop s).take c := by
  induction c with
  | zero => simp
  | succ n ih =>
      rw [List.range_succ, List.filterMap_append, ih, List.take_succ]
      simp only [List.filterMap_cons, List.filterMap_nil, List.getElem?_drop]
      cases l[s + n]? <;> rfl

lemma batchChunk_eq (l : List TransferInstruction) (c i : Nat) :
    batchChunk l c i = (l.drop (i * c)).take c :=
  filterMap_range_get l c (i * c)

lemma ceil_div_zero (c : Nat) (hc : 1 ≤ c) : (0 + c - 1) / c = 0 := by
  have : c - 1 < c := by omega
  simp only [Nat.zero_add]
  exact Nat.div_eq_of_lt this

lemma ceil_div_step (len c : Nat) (hc : 1 ≤ c) (hlen : 1 ≤ len) :
    (len + c - 1) / c = ((len - c) + c - 1) / c + 1 := by
  have hc0 : 0 < c := hc
  have h1 : len + c - 1 = (len - 1) + c := by omega
  rw [h1, Nat.add_div_right _ hc0]
  rcases le_or_lt len c with hle | hlt
  · have h2 : len - c = 0 := by omega
    rw [h2]
    have h3 : len - 1 < c := by omega
    have h4 : c - 1 < c := by omega
    simp only [Nat.zero_add]
    rw [Nat.div_eq_of_lt h3, Nat.div_eq_of_lt h4]
  · have h2 : (len - c) + c - 1 = (len - c - 1) + c := by omega
    rw [h2, Nat.add_div_right _ hc0]
    have h3 : len - 1 = (len - c - 1) + c := by omega
    rw [h3, Nat.add_div_right _ hc0]

lemma join_chunks {α : Type} (c : Nat) (hc : 1 ≤ c) :
    ∀ (n : Nat) (l : List α), l.length ≤ n →
      ((List.range ((l.length + c - 1) / c)).map fun i => (l.drop (i * c)).take c).flatten = l := by
  intro n
  induction n with
  | zero =>
      intro l hl
      have hnil : l = [] := List.length_eq_zero.mp (Nat.le_zero.mp hl)
      subst hnil
      simp [ceil_div_zero c hc]
  | succ n ih =>
      intro l hl
      rcases l with _ | ⟨x, xs⟩
      · simp [ceil_div_zero c hc]
      · set l := x :: xs with hldef
        have hlen1 : 1 ≤ l.length := by simp [hldef]
        have hk : (l.length + c - 1) / c = ((l.drop c).length + c - 1) / c + 1 := by
          rw [List.length_drop]
          exact ceil_div_step l.length c hc hlen1
        rw [hk, List.range_succ_eq_map, List.map_cons, List.map_map, List.flatten_cons]
        have hmap : ((List.range (((l.drop c).length + c - 1) / c)).map
              ((fun i => (l.drop (i * c)).take c) ∘ Nat.succ)) =
            (List.range (((l.drop c).length + c - 1) / c)).map
              (fun i => ((l.drop c).drop (i * c)).take c) := by
          apply List.map_congr_left
          intro i _
          simp only [Function.comp, List.drop_drop, Nat.succ_mul]
          rw [Nat.add_comm]
        rw [hmap]
        have hih := ih (l.drop c) (by rw [List.length_drop]; omega)
        rw [hih]
        simp [List.take_append_drop]

/-- Full characterization of `generateTransactions` for a positive capacity. -/
lemma generateTransactions_pos (C : Int) (hC : 1 ≤ C) (dl : List Drop) (w : String) (a : Nat) :
    generateTransactions C dl w a =
      some ((List.range ((dl.length + C.toNat - 1) / C.toNat)).map fun i =>
        { instructions := ((dl.map (dropInstruction w a)).drop (i * C.toNat)).take C.toNat }) := by
  have h0 : (0 : Int) < C := by omega
  unfold generateTransactions numTransactionsFor
  simp only [List.length_map, if_pos h0]
  congr 1
  apply List.map_congr_left
  intro i _
  rw [batchChunk_eq]

/-- Shared characterization: batch count, batch size bound and flattening
of the batch list produced for a positive capacity. -/
lemma generateTransactions_parts (C : Int) (hC : 1 ≤ C) (dl : List Drop) (w : String) (a : Nat) :
    ∃ bs : List Transaction,
      generateTransactions C dl w a = some bs ∧
      bs.length = (dl.length + C.toNat - 1) / C.toNat ∧
      (∀ b ∈ bs, b.instructions.length ≤ C.toNat) ∧
      (bs.map Transaction.instructions).flatten = dl.map (dropInstruction w a) := by
  have hc1 : 1 ≤ C.toNat := by omega
  refine ⟨_, generateTransactions_pos C hC dl w a, ?_, ?_, ?_⟩
  · simp
  · intro b hb
    simp only [List.mem_map, List.mem_range] at hb
    obtain ⟨i, _, hbeq⟩ := hb
    subst hbeq
    simp only [List.length_take]
    exact Nat.min_le_left _ _
  · rw [List.map_map]
    have hcomp : (Transaction.instructions ∘ fun i =>
          ({ instructions := ((dl.map (dropInstruction w a)).drop (i * C.toNat)).take C.toNat }
            : Transaction)) =
        fun i => ((dl.map (dropInstruction w a)).drop (i * C.toNat)).take C.toNat := rfl
    rw [hcomp]
    have hlen : dl.length = (dl.map (dropInstruction w a)).length := (List.length_map _ _).symm
    rw [hlen]
    exact join_chunks C.toNat hc1 (dl.map (dropInstruction w a)).length _ (le_refl _)

/-- Claim C1: for every drop list of length N and capacity C >= 1,
`generateTransactions` returns exactly `(N + C - 1) / C` batches — the
ceiling of N / C — each batch holds at most C instructions, the
instruction counts over all batches sum to N, and concatenating the
batches in order yields the full instruction list in its original
order. -/
theorem generateTransactions_batching (C : Int) (hC : 1 ≤ C) (dl : List Drop) (w : String)
    (a : Nat) :
    ∃ bs : List Transaction,
      generateTransactions C dl w a = some bs ∧
      bs.length = (dl.length + C.toNat - 1) / C.toNat ∧
      (∀ b ∈ bs, b.instructions.length ≤ C.toNat) ∧
      ((bs.map fun b => b.instructions.length).sum = dl.length) ∧
      (bs.map Transaction.instructions).flatten = dl.map (dropInstruction w a) := by
  obtain ⟨bs, h1, h2, h3, h4⟩ := generateTransactions_parts C hC dl w a
  refine ⟨bs, h1, h2, h3, ?_, h4⟩
  have hlen := congrArg List.length h4
  rw [List.length_flatten, List.map_map, List.length_map] at hlen
  exact hlen

/-- Witness for C1 at capacity 2 and three drops: two batches of sizes 2
and 1. -/
theorem generateTransactions_batching_witness :
    ∃ bs : List Transaction,
      generateTransactions 2 [⟨"o1", "a1"⟩, ⟨"o2", "a2"⟩, ⟨"o3", "a3"⟩] "w" 4 = some bs ∧
      bs.length = 2 ∧
      (∀ b ∈ bs, b.instructions.length ≤ 2) ∧
      ((bs.map fun b => b.instructions.length).sum = 3) ∧
      (bs.map Transaction.instructions).flatten =
        [⟨"o1", "a1"⟩, ⟨"o2", "a2"⟩, ⟨"o3", "a3"⟩].map (dropInstruction "w" 4) :=
  generateTransactions_batching 2 (by decide) [⟨"o1", "a1"⟩, ⟨"o2", "a2"⟩, ⟨"o3", "a3"⟩] "w" 4

/-- Claim C2 counterexample: `generateTransactions` with a negative
capacity does not fail with any error — it terminates normally and
returns the empty batch list.  The source (src/index.ts lines 27-48)
contains no capacity validation at all: with `batchSize = -1` the loop
bound `Math.ceil(1 / -1) = -1` makes the outer loop run zero times. -/
theorem generateTransactions_negative_capacity_no_error :
    generateTransactions (-1) [{ owner := "o", address := "a" }] "w" 1 = some [] := rfl

/-- Claim C2 amended: for capacity below 1 the batcher signals no
`InvalidCapacity` error.  With a negative capacity, or with capacity 0 on
an empty drop list, it returns the empty batch list; with capacity 0 on a
non-empty drop list the outer loop bound is `Infinity` and the call never
terminates (modelled by `none`).  In no case is an error raised. -/
theorem generateTransactions_nonpositive_capacity (C : Int) (hC : C ≤ 0) (dl : List Drop)
    (w : String) (a : Nat) :
    generateTransactions C dl w a = if C < 0 ∨ dl = [] then some [] else none := by
  have hnot : ¬ (0 : Int) < C := by omega
  unfold generateTransactions numTransactionsFor
  simp only [List.length_map, if_neg hnot]
  by_cases hdl : dl = []
  · subst hdl
    simp
  · have hlen : ¬ dl.length = 0 := by
      simpa [List.length_eq_zero] using hdl
    by_cases hneg : C < 0
    · simp [hlen, hneg]
    · have hz : C = 0 := by omega
      simp [hlen, hneg, hz, hdl]

/-- Witness for the amended C2 at capacity -1 and one drop. -/
theorem generateTransactions_nonpositive_capacity_witness :
    generateTransactions (-1) [{ owner := "o2", address := "a2" }] "w2" 1 =
      if (-1 : Int) < 0 ∨ ([{ owner := "o2", address := "a2" }] : List Drop) = [] then some []
      else none :=
  generateTransactions_nonpositive_capacity (-1) (by decide)
    [{ owner := "o2", address := "a2" }] "w2" 1

/-- Claim C10: every instruction placed in a generated batch transfers
exactly `amount * LAMPORTS_PER_SOL` base units (the amount argument is in
whole SOL) from the payer wallet to the key taken from the `owner` field
of the drop — not its `address` field — and the i-th instruction across
the concatenated batches corresponds to the i-th drop of the input. -/
theorem generateTransactions_instruction_fields (C : Int) (hC : 1 ≤ C) (dl : List Drop)
    (w : String) (a : Nat) (i : Nat) (hi : i < dl.length) :
    ∃ bs : List Transaction,
      generateTransactions C dl w a = some bs ∧
      ((bs.map Transaction.instructions).flatten)[i]? =
        some { fromPubkey := w, toPubkey := dl[i].owner, lamports := a * LAMPORTS_PER_SOL } := by
  obtain ⟨bs, h1, _, _, h4⟩ := generateTransactions_parts C hC dl w a
  refine ⟨bs, h1, ?_⟩
  rw [h4, List.getElem?_map, List.getElem?_eq_getElem hi]
  rfl

/-- Witness for C10 at capacity 2, three drops, amount 7, index 1. -/
theorem generateTransactions_instruction_fields_witness :
    ∃ bs : List Transaction,
      generateTransactions 2 [⟨"u1", "m1"⟩, ⟨"u2", "m2"⟩, ⟨"u3", "m3"⟩] "payer" 7 = some bs ∧
      ((bs.map Transaction.instructions).flatten)[1]? =
        some { fromPubkey := "payer",
               toPubkey := ([⟨"u1", "m1"⟩, ⟨"u2", "m2"⟩, ⟨"u3", "m3"⟩] : List Drop)[1].owner,
               lamports := 7 * LAMPORTS_PER_SOL } :=
  generateTransactions_instruction_fields 2 (by decide)
    [⟨"u1", "m1"⟩, ⟨"u2", "m2"⟩, ⟨"u3", "m3"⟩] "payer" 7 1 (by decide)

/-! ### Model of errors and of the network oracle for `executeTransactions` -/

/-- A JS error value as inspected by src/index.ts: only the `name`,
`signature` and `message` properties are ever read; an absent property is
`none`. -/
structure JsError where
  name : Option String := none
  signature : Option String := none
  message : Option String := none
deriving DecidableEq

/-- Type guard of src/index.ts lines 53-55: the value has `name` and
`signature` properties and its name equals
"TransactionExpiredBlockheightExceededError". -/
def isTransactionExpiredBlockheightExceededError (e : JsError) : Bool :=
  e.name.isSome && e.signature.isSome &&
    e.name == some "TransactionExpiredBlockheightExceededError"

/-- Type guard of src/index.ts lines 60-62: the value has a string
`message` property. -/
def isErrorWithMessage (e : JsError) : Bool :=
  e.message.isSome

/-- Word character of the JS regex class `\w`. -/
def isWordChar (c : Char) : Bool :=
  c.isAlpha || c.isDigit || c = '_'

/-- Longest word-character run at the head of the list (the greedy `\w+`). -/
def takeWhileWord : List Char → List Char
  | [] => []
  | c :: cs => if isWordChar c then c :: takeWhileWord cs else []

/-- First match of the regex `/Signature (\w+)/` (src/index.ts line 124):
scan left to right for the literal "Signature " followed by at least one
word character, and return the maximal word-character run after the
literal. -/
def sigMatch : List Char → Option String
  | [] => none
  | c :: cs =>
    if ("Signature ".toList).isPrefixOf (c :: cs) then
      match (c :: cs).drop 10 with
      | [] => sigMatch cs
      | r :: rs =>
          if isWordChar r then some (String.mk (r :: takeWhileWord rs)) else sigMatch cs
    else sigMatch cs

/-- The `errorSignature` extraction of src/index.ts lines 124-125, applied
to the message property of the caught error. -/
def extractSignature (e : JsError) : Option String :=
  match e.message with
  | none => none
  | some m => sigMatch m.toList

/-- The error thrown locally at src/index.ts lines 97-99 when the current
block height exceeds the last valid block height.  A plain `new Error`
has name "Error", the interpolated message below, and no `signature`
property. -/
def expiredHeightError (i h l : Nat) : JsError :=
  { name := some "Error",
    message := some ("Transaction " ++ toString (i + 1) ++
      " has expired: current block height " ++ toString h ++
      " exceeds last valid block height " ++ toString l) }

/-- Network oracle for one transaction of `executeTransactions`: the
result of each awaited RPC call, indexed by the (0-based) attempt that
performs it.  An `Except.error` result models a rejected promise. -/
structure NetEnv where
  getLatestBlockhash : Nat → Except JsError (String × Nat)
  getBlockHeight : Nat → Except JsError Nat
  sendAndConfirmTransaction : Nat → Except JsError String
  getSignatureStatus : Nat → String → Except JsError (Option String)

/-- One network call made during a run, recording the transaction index
and attempt that issued it. -/
inductive NetEvent where
  | latestBlockhash (tx attempt : Nat)
  | blockHeight (tx attempt : Nat)
  | submit (tx attempt : Nat)
  | statusLookup (tx attempt : Nat) (sig : String)
deriving DecidableEq

/-- Transaction index of an event. -/
def NetEvent.txIdx : NetEvent → Nat
  | .latestBlockhash i _ => i
  | .blockHeight i _ => i
  | .submit i _ => i
  | .statusLookup i _ _ => i

/-- Attempt index of an event. -/
def NetEvent.attemptIdx : NetEvent → Nat
  | .latestBlockhash _ a => a
  | .blockHeight _ a => a
  | .submit _ a => a
  | .statusLookup _ a _ => a

/-- A `PromiseSettledResult<string>` as pushed into `results`. -/
inductive Settled where
  | fulfilled (value : String)
  | rejected (reason : JsError)
deriving DecidableEq

deriving instance DecidableEq for Except

/-- Number of `sendAndConfirmTransaction` calls in a trace. -/
def countSubmits (evs : List NetEvent) : Nat :=
  evs.countP fun e => match e with | .submit _ _ => true | _ => false

/-- Number of `getSignatureStatus` calls in a trace. -/
def countStatusLookups (evs : List NetEvent) : Nat :=
  evs.countP fun e => match e with | .statusLookup _ _ _ => true | _ => false

/-- The try block of one attempt (src/index.ts lines 87-109): fetch the
latest blockhash and height, throw locally when the height already
exceeds the expiry bound, otherwise submit.  Returns the events issued
and the signature or the caught error. -/
def attemptStep (env : NetEnv) (i a : Nat) : List NetEvent × Except JsError String :=
  match env.getLatestBlockhash a with
  | .error e => ([.latestBlockhash i a], .error e)
  | .ok (_, lastValidBlockHeight) =>
    match env.getBlockHeight a with
    | .error e => ([.latestBlockhash i a, .blockHeight i a], .error e)
    | .ok currentBlockHeight =>
      if lastValidBlockHeight < currentBlockHeight then
        ([.latestBlockhash i a, .blockHeight i a],
          .error (expiredHeightError i currentBlockHeight lastValidBlockHeight))
      else
        match env.sendAndConfirmTransaction a with
        | .error e => ([.latestBlockhash i a, .blockHeight i a, .submit i a], .error e)
        | .ok s => ([.latestBlockhash i a, .blockHeight i a, .submit i a], .ok s)

/-- Result of the catch block body before the attempt counter is
incremented: the loop breaks with a settled result, an exception escapes
the catch block uncaught, or control falls through to `attempt++`. -/
inductive CatchOutcome where
  | settledNow (s : Settled)
  | uncaught (e : JsError)
  | fallthrough (e : JsError)
deriving DecidableEq

/-- The catch block of src/index.ts lines 110-144, up to (not including)
`attempt++`.  `sigLocal` is the function-local `signature` variable.  The
`getSignatureStatus` calls happen inside the catch block with no handler
of their own, so their failure is `uncaught`. -/
def handleCatch (env : NetEnv) (i a : Nat) (sigLocal : Option String) (e : JsError) :
    List NetEvent × CatchOutcome :=
  match sigLocal, isTransactionExpiredBlockheightExceededError e with
  | some s, true =>
    match env.getSignatureStatus a s with
    | .error e2 => ([.statusLookup i a s], .uncaught e2)
    | .ok st =>
      if st = some "finalized" then ([.statusLookup i a s], .settledNow (.fulfilled s))
      else ([.statusLookup i a s], .fallthrough e)
  | _, _ =>
    if isErrorWithMessage e then
      match extractSignature e with
      | some tok =>
        match env.getSignatureStatus a tok with
        | .error e2 => ([.statusLookup i a tok], .uncaught e2)
        | .ok st =>
          if st = some "finalized" then ([.statusLookup i a tok], .settledNow (.fulfilled tok))
          else ([.statusLookup i a tok], .fallthrough e)
      | none => ([], .fallthrough e)
    else ([], .fallthrough e)

/-- The per-transaction retry loop of src/index.ts lines 86-156, entered
at attempt number `attempt` with `remaining = maxRetries - attempt`
retries still allowed; the loop guard `attempt <= maxRetries` together
with the `attempt > maxRetries` test after `attempt++` (line 148) is
exactly `remaining = 0` versus `remaining = r + 1`.  On fallthrough the
attempt counter is incremented; with no retries remaining the rejected
result is pushed, otherwise (after the inter-attempt delay) the loop body
runs again.  The local `signature` variable is only assigned on a
successful submission, which immediately ends the loop, so it is threaded
through unchanged here. -/
def attemptLoop (env : NetEnv) (i : Nat) :
    Nat → Nat → Option String → List NetEvent × Except JsError Settled
  | remaining, attempt, sigLocal =>
    match attemptStep env i attempt with
    | (evs, .ok s) => (evs, .ok (.fulfilled s))
    | (evs, .error e) =>
      match handleCatch env i attempt sigLocal e with
      | (evs2, .uncaught e2) => (evs ++ evs2, .error e2)
      | (evs2, .settledNow st) => (evs ++ evs2, .ok st)
      | (evs2, .fallthrough e2) =>
        match remaining with
        | 0 => (evs ++ evs2, .ok (.rejected e2))
        | r + 1 =>
          ((evs ++ evs2) ++ (attemptLoop env i r (attempt + 1) sigLocal).1,
            (attemptLoop env i r (attempt + 1) sigLocal).2)

/-- The outer `for` loop of src/index.ts lines 81-162 starting at
transaction index `i`: process each transaction to a terminal result,
sequentially; an exception escaping a catch block rejects the whole
returned promise, discarding the results accumulated so far. -/
def execGo (env : Nat → NetEnv) (m : Nat) :
    Nat → List Transaction → List NetEvent × Except JsError (List Settled)
  | _, [] => ([], .ok [])
  | i, _ :: rest =>
    -- the loop starts at attempt 0 with all `m` retries remaining
    match attemptLoop (env i) i m 0 none with
    | (evs, .error e) => (evs, .error e)
    | (evs, .ok st) =>
      match execGo env m (i + 1) rest with
      | (evs2, .error e) => (evs ++ evs2, .error e)
      | (evs2, .ok sts) => (evs ++ evs2, .ok (st :: sts))

/-- Shallow embedding of `executeTransactions` (src/index.ts lines
73-165).  Returns the ordered trace of network calls and either the
settled results list or the uncaught rejection.  The connection and the
payer keypair are absorbed by the oracle; `maxRetries` defaults to 3 at
the call site. -/
def executeTransactions (env : Nat → NetEnv) (txs : List Transaction) (maxRetries : Nat) :
    List NetEvent × Except JsError (List Settled) :=
  execGo env maxRetries 0 txs

/-! ### Helper lemmas about the attempt step -/

lemma attemptStep_send_ok (env : NetEnv) (i a : Nat) (bh : String) (lv h : Nat) (s : String)
    (h1 : env.getLatestBlockhash a = .ok (bh, lv))
    (h2 : env.getBlockHeight a = .ok h)
    (h3 : h ≤ lv)
    (h4 : env.sendAndConfirmTransaction a = .ok s) :
    attemptStep env i a =
      ([.latestBlockhash i a, .blockHeight i a, .submit i a], .ok s) := by
  have hlt : ¬ lv < h := by omega
  simp [attemptStep, h1, h2, h4, hlt]

lemma attemptStep_send_error (env : NetEnv) (i a : Nat) (bh : String) (lv h : Nat) (e : JsError)
    (h1 : env.getLatestBlockhash a = .ok (bh, lv))
    (h2 : env.getBlockHeight a = .ok h)
    (h3 : h ≤ lv)
    (h4 : env.sendAndConfirmTransaction a = .error e) :
    attemptStep env i a =
      ([.latestBlockhash i a, .blockHeight i a, .submit i a], .error e) := by
  have hlt : ¬ lv < h := by omega
  simp [attemptStep, h1, h2, h4, hlt]

lemma attemptStep_height_exceeded (env : NetEnv) (i a : Nat) (bh : String) (lv h : Nat)
    (h1 : env.getLatestBlockhash a = .ok (bh, lv))
    (h2 : env.getBlockHeight a = .ok h)
    (h3 : lv < h) :
    attemptStep env i a =
      ([.latestBlockhash i a, .blockHeight i a], .error (expiredHeightError i h lv)) := by
  simp [attemptStep, h1, h2, h3]

lemma attemptStep_events (env : NetEnv) (i a : Nat) :
    ∀ ev ∈ (attemptStep env i a).1, ev.txIdx = i ∧ ev.attemptIdx = a := by
  unfold attemptStep
  repeat' split
  all_goals intro ev hev
  all_goals fin_cases hev
  all_goals exact ⟨rfl, rfl⟩

/-! ### Characters of decimal representations are never the marker letter -/

lemma digitChar_ne_S (m : Nat) : Nat.digitChar m ≠ 'S' := by
  rcases Nat.lt_or_ge m 16 with hm | hm
  · interval_cases m <;> decide
  · have hstar : Nat.digitChar m = '*' := by
      unfold Nat.digitChar
      repeat rw [if_neg (by omega)]
    rw [hstar]
    decide

lemma toDigitsCore_ne_S (b : Nat) :
    ∀ (fuel n : Nat) (ds : List Char), (∀ c ∈ ds, c ≠ 'S') →
      ∀ c ∈ Nat.toDigitsCore b fuel n ds, c ≠ 'S' := by
  intro fuel
  induction fuel with
  | zero => intro n ds hds c hc; exact hds c hc
  | succ f ih =>
      intro n ds hds c hc
      simp only [Nat.toDigitsCore] at hc
      by_cases hz : n / b = 0
      · rw [if_pos hz] at hc
        rcases List.mem_cons.mp hc with hcd | hcd
        · subst hcd; exact digitChar_ne_S _
        · exact hds c hcd
      · rw [if_neg hz] at hc
        refine ih (n / b) (Nat.digitChar (n % b) :: ds) ?_ c hc
        intro c2 hc2
        rcases List.mem_cons.mp hc2 with hcd | hcd
        · subst hcd; exact digitChar_ne_S _
        · exact hds c2 hcd

lemma toString_nat_ne_S (n : Nat) : ∀ c ∈ (toString n).toList, c ≠ 'S' := by
  intro c hc
  exact toDigitsCore_ne_S 10 (n + 1) n [] (by simp) c hc

/-- A string with no capital S has no match of the `/Signature (\w+)/`
pattern. -/
lemma sigMatch_no_S : ∀ (s : List Char), (∀ c ∈ s, c ≠ 'S') → sigMatch s = none
  | [], _ => rfl
  | c :: cs, h => by
      have hc : c ≠ 'S' := h c (by simp)
      have hbeq : ('S' == c) = false := by
        cases hq : ('S' == c)
        · rfl
        · exact absurd (eq_of_beq hq).symm hc
      have hpre : (("Signature ".toList).isPrefixOf (c :: cs)) = false := by
        have hS : "Signature ".toList = 'S' :: "ignature ".toList := rfl
        rw [hS, List.isPrefixOf, hbeq, Bool.false_and]
      have hrec : sigMatch cs = none := sigMatch_no_S cs fun c2 hc2 => h c2 (by simp [hc2])
      simp only [sigMatch, hpre, Bool.false_eq_true, if_false]
      exact hrec

/-! ### The locally thrown expiry error never carries a signature token -/

lemma expiredHeightError_not_typed (i h l : Nat) :
    isTransactionExpiredBlockheightExceededError (expiredHeightError i h l) = false := rfl

lemma expiredHeightError_has_message (i h l : Nat) :
    isErrorWithMessage (expiredHeightError i h l) = true := rfl

lemma expiredHeightError_extract (i h l : Nat) :
    extractSignature (expiredHeightError i h l) = none := by
  unfold extractSignature expiredHeightError
  simp only []
  apply sigMatch_no_S
  intro c hc
  have hsplit : ("Transaction " ++ toString (i + 1) ++
      " has expired: current block height " ++ toString h ++
      " exceeds last valid block height " ++ toString l).toList =
      "Transaction ".toList ++ (toString (i + 1)).toList ++
      " has expired: current block height ".toList ++ (toString h).toList ++
      " exceeds last valid block height ".toList ++ (toString l).toList := by
    show ("Transaction " ++ toString (i + 1) ++ " has expired: current block height " ++
        toString h ++ " exceeds last valid block height " ++ toString l).data = _
    rw [String.data_append, String.data_append, String.data_append, String.data_append,
      String.data_append]
    rfl
  rw [hsplit] at hc
  simp only [List.mem_append] at hc
  rcases hc with ((((hc | hc) | hc) | hc) | hc) | hc
  · exact (by decide : ∀ c2 ∈ "Transaction ".toList, c2 ≠ 'S') c hc
  · exact toString_nat_ne_S _ c hc
  · exact (by decide : ∀ c2 ∈ " has expired: current block height ".toList, c2 ≠ 'S') c hc
  · exact toString_nat_ne_S _ c hc
  · exact (by decide : ∀ c2 ∈ " exceeds last valid block height ".toList, c2 ≠ 'S') c hc
  · exact toString_nat_ne_S _ c hc

/-! ### Helper lemmas about the catch block -/

lemma handleCatch_shape (env : NetEnv) (i a : Nat) (sig : Option String) (e : JsError) :
    (handleCatch env i a sig e).1 = [] ∨
      ∃ s2, (handleCatch env i a sig e).1 = [NetEvent.statusLookup i a s2] := by
  unfold handleCatch
  rcases sig with _ | s <;> cases hb : isTransactionExpiredBlockheightExceededError e <;>
    dsimp only <;> repeat' split
  all_goals simp

lemma handleCatch_events (env : NetEnv) (i a : Nat) (sig : Option String) (e : JsError) :
    ∀ ev ∈ (handleCatch env i a sig e).1, ev.txIdx = i ∧ ev.attemptIdx = a := by
  intro ev hev
  rcases handleCatch_shape env i a sig e with hs | ⟨s2, hs⟩
  · rw [hs] at hev
    exact absurd hev (List.not_mem_nil ev)
  · rw [hs] at hev
    have hev2 := List.mem_singleton.mp hev
    subst hev2
    exact ⟨rfl, rfl⟩

lemma handleCatch_no_submit (env : NetEnv) (i a : Nat) (sig : Option String) (e : JsError) :
    countSubmits (handleCatch env i a sig e).1 = 0 := by
  rcases handleCatch_shape env i a sig e with hs | ⟨s2, hs⟩ <;> rw [hs] <;> rfl

lemma handleCatch_not_uncaught (env : NetEnv) (i a : Nat) (sig : Option String) (e : JsError)
    (hstat : ∀ s, ∃ st, env.getSignatureStatus a s = .ok st) :
    (∃ st, (handleCatch env i a sig e).2 = .settledNow st) ∨
      (handleCatch env i a sig e).2 = .fallthrough e := by
  unfold handleCatch
  rcases sig with _ | s <;> cases hb : isTransactionExpiredBlockheightExceededError e <;>
    dsimp only
  · split
    · split
      · rename_i tok heq
        obtain ⟨st, hst⟩ := hstat tok
        simp only [hst]
        by_cases hf : st = some "finalized"
        · rw [if_pos hf]
          exact Or.inl ⟨_, rfl⟩
        · rw [if_neg hf]
          exact Or.inr rfl
      · exact Or.inr rfl
    · exact Or.inr rfl
  · split
    · split
      · rename_i tok heq
        obtain ⟨st, hst⟩ := hstat tok
        simp only [hst]
        by_cases hf : st = some "finalized"
        · rw [if_pos hf]
          exact Or.inl ⟨_, rfl⟩
        · rw [if_neg hf]
          exact Or.inr rfl
      · exact Or.inr rfl
    · exact Or.inr rfl
  · split
    · split
      · rename_i tok heq
        obtain ⟨st, hst⟩ := hstat tok
        simp only [hst]
        by_cases hf : st = some "finalized"
        · rw [if_pos hf]
          exact Or.inl ⟨_, rfl⟩
        · rw [if_neg hf]
          exact Or.inr rfl
      · exact Or.inr rfl
    · exact Or.inr rfl
  · obtain ⟨st, hst⟩ := hstat s
    simp only [hst]
    by_cases hf : st = some "finalized"
    · rw [if_pos hf]
      exact Or.inl ⟨_, rfl⟩
    · rw [if_neg hf]
      exact Or.inr rfl

lemma handleCatch_none_fallthrough (env : NetEnv) (i a : Nat) (e : JsError)
    (hstat : ∀ s, ∃ st, env.getSignatureStatus a s = .ok st ∧ st ≠ some "finalized") :
    (handleCatch env i a none e).2 = .fallthrough e := by
  unfold handleCatch
  cases hb : isTransactionExpiredBlockheightExceededError e <;> dsimp only
  all_goals
    split
  · split
    · rename_i tok heq
      obtain ⟨st, hst, hne⟩ := hstat tok
      simp only [hst]
      rw [if_neg hne]
    · rfl
  · rfl
  · split
    · rename_i tok heq
      obtain ⟨st, hst, hne⟩ := hstat tok
      simp only [hst]
      rw [if_neg hne]
    · rfl
  · rfl

/-! ### Helper lemmas about the retry loop -/

lemma countSubmits_append (l1 l2 : List NetEvent) :
    countSubmits (l1 ++ l2) = countSubmits l1 + countSubmits l2 :=
  List.countP_append _ _ _

lemma attemptLoop_zero (env : NetEnv) (i attempt : Nat) (sig : Option String) :
    attemptLoop env i 0 attempt sig =
      match attemptStep env i attempt with
      | (evs, .ok s) => (evs, .ok (.fulfilled s))
      | (evs, .error e) =>
        match handleCatch env i attempt sig e with
        | (evs2, .uncaught e2) => (evs ++ evs2, .error e2)
        | (evs2, .settledNow st) => (evs ++ evs2, .ok st)
        | (evs2, .fallthrough e2) => (evs ++ evs2, .ok (.rejected e2)) := by
  conv_lhs => unfold attemptLoop

lemma attemptLoop_succ (env : NetEnv) (i r attempt : Nat) (sig : Option String) :
    attemptLoop env i (r + 1) attempt sig =
      match attemptStep env i attempt with
      | (evs, .ok s) => (evs, .ok (.fulfilled s))
      | (evs, .error e) =>
        match handleCatch env i attempt sig e with
        | (evs2, .uncaught e2) => (evs ++ evs2, .error e2)
        | (evs2, .settledNow st) => (evs ++ evs2, .ok st)
        | (evs2, .fallthrough e2) =>
          ((evs ++ evs2) ++ (attemptLoop env i r (attempt + 1) sig).1,
            (attemptLoop env i r (attempt + 1) sig).2) := by
  conv_lhs => unfold attemptLoop

lemma attemptLoop_events (env : NetEnv) (i : Nat) :
    ∀ (remaining attempt : Nat) (sig : Option String),
      ∀ ev ∈ (attemptLoop env i remaining attempt sig).1,
        ev.txIdx = i ∧ attempt ≤ ev.attemptIdx := by
  intro remaining
  induction remaining with
  | zero =>
      intro attempt sig ev hev
      rw [attemptLoop_zero] at hev
      split at hev
      · rename_i evs s heq
        obtain ⟨h1, h2⟩ := attemptStep_events env i attempt ev (by rw [heq]; exact hev)
        exact ⟨h1, h2.ge⟩
      · rename_i evs e heq
        split at hev
        · rename_i evs2 e2 heq2
          rcases List.mem_append.mp hev with hm | hm
          · obtain ⟨h1, h2⟩ := attemptStep_events env i attempt ev (by rw [heq]; exact hm)
            exact ⟨h1, h2.ge⟩
          · obtain ⟨h1, h2⟩ := handleCatch_events env i attempt sig e ev (by rw [heq2]; exact hm)
            exact ⟨h1, h2.ge⟩
        · rename_i evs2 st heq2
          rcases List.mem_append.mp hev with hm | hm
          · obtain ⟨h1, h2⟩ := attemptStep_events env i attempt ev (by rw [heq]; exact hm)
            exact ⟨h1, h2.ge⟩
          · obtain ⟨h1, h2⟩ := handleCatch_events env i attempt sig e ev (by rw [heq2]; exact hm)
            exact ⟨h1, h2.ge⟩
        · rename_i evs2 e2 heq2
          rcases List.mem_append.mp hev with hm | hm
          · obtain ⟨h1, h2⟩ := attemptStep_events env i attempt ev (by rw [heq]; exact hm)
            exact ⟨h1, h2.ge⟩
          · obtain ⟨h1, h2⟩ := handleCatch_events env i attempt sig e ev (by rw [heq2]; exact hm)
            exact ⟨h1, h2.ge⟩
  | succ r ih =>
      intro attempt sig ev hev
      rw [attemptLoop_succ] at hev
      split at hev
      · rename_i evs s heq
        obtain ⟨h1, h2⟩ := attemptStep_events env i attempt ev (by rw [heq]; exact hev)
        exact ⟨h1, h2.ge⟩
      · rename_i evs e heq
        split at hev
        · rename_i evs2 e2 heq2
          rcases List.mem_append.mp hev with hm | hm
          · obtain ⟨h1, h2⟩ := attemptStep_events env i attempt ev (by rw [heq]; exact hm)
            exact ⟨h1, h2.ge⟩
          · obtain ⟨h1, h2⟩ := handleCatch_events env i attempt sig e ev (by rw [heq2]; exact hm)
            exact ⟨h1, h2.ge⟩
        · rename_i evs2 st heq2
          rcases List.mem_append.mp hev with hm | hm
          · obtain ⟨h1, h2⟩ := attemptStep_events env i attempt ev (by rw [heq]; exact hm)
            exact ⟨h1, h2.ge⟩
          · obtain ⟨h1, h2⟩ := handleCatch_events env i attempt sig e ev (by rw [heq2]; exact hm)
            exact ⟨h1, h2.ge⟩
        · rename_i evs2 e2 heq2
          rcases List.mem_append.mp hev with hm | hm
          · rcases List.mem_append.mp hm with hm2 | hm2
            · obtain ⟨h1, h2⟩ := attemptStep_events env i attempt ev (by rw [heq]; exact hm2)
              exact ⟨h1, h2.ge⟩
            · obtain ⟨h1, h2⟩ :=
                handleCatch_events env i attempt sig e ev (by rw [heq2]; exact hm2)
              exact ⟨h1, h2.ge⟩
          · obtain ⟨h1, h2⟩ := ih (attempt + 1) sig ev hm
            exact ⟨h1, by omega⟩

lemma attemptLoop_ok (env : NetEnv) (i : Nat)
    (hstat : ∀ a s, ∃ st, env.getSignatureStatus a s = .ok st) :
    ∀ (remaining attempt : Nat) (sig : Option String),
      ∃ r, (attemptLoop env i remaining attempt sig).2 = .ok r := by
  intro remaining
  induction remaining with
  | zero =>
      intro attempt sig
      rw [attemptLoop_zero]
      split
      · exact ⟨_, rfl⟩
      · rename_i evs e heq
        have hnu := handleCatch_not_uncaught env i attempt sig e (hstat attempt)
        rcases hc : handleCatch env i attempt sig e with ⟨evs2, co⟩
        rw [hc] at hnu
        dsimp only at hnu
        rcases hnu with ⟨st, hco⟩ | hco <;> subst hco
        · exact ⟨st, rfl⟩
        · exact ⟨_, rfl⟩
  | succ r ih =>
      intro attempt sig
      rw [attemptLoop_succ]
      split
      · exact ⟨_, rfl⟩
      · rename_i evs e heq
        have hnu := handleCatch_not_uncaught env i attempt sig e (hstat attempt)
        rcases hc : handleCatch env i attempt sig e with ⟨evs2, co⟩
        rw [hc] at hnu
        dsimp only at hnu
        rcases hnu with ⟨st, hco⟩ | hco <;> subst hco
        · exact ⟨st, rfl⟩
        · exact ih (attempt + 1) sig

lemma attemptLoop_all_reject (env : NetEnv) (i : Nat) (errF : Nat → JsError)
    (hstep : ∀ a, attemptStep env i a =
      ([.latestBlockhash i a, .blockHeight i a, .submit i a], .error (errF a)))
    (hstat : ∀ a s, ∃ st, env.getSignatureStatus a s = .ok st ∧ st ≠ some "finalized") :
    ∀ (remaining attempt : Nat),
      (attemptLoop env i remaining attempt none).2 =
        .ok (.rejected (errF (attempt + remaining))) ∧
      countSubmits (attemptLoop env i remaining attempt none).1 = remaining + 1 := by
  intro remaining
  induction remaining with
  | zero =>
      intro attempt
      have hcf := handleCatch_none_fallthrough env i attempt (errF attempt) (hstat attempt)
      have hc0 := handleCatch_no_submit env i attempt none (errF attempt)
      rw [attemptLoop_zero, hstep attempt]
      dsimp only
      rcases hc : handleCatch env i attempt none (errF attempt) with ⟨evs2, co⟩
      rw [hc] at hcf hc0
      dsimp only at hcf hc0
      subst hcf
      dsimp only
      constructor
      · rw [Nat.add_zero]
      · rw [countSubmits_append, hc0]
        rfl
  | succ r ih =>
      intro attempt
      have hcf := handleCatch_none_fallthrough env i attempt (errF attempt) (hstat attempt)
      have hc0 := handleCatch_no_submit env i attempt none (errF attempt)
      obtain ⟨ih1, ih2⟩ := ih (attempt + 1)
      rw [attemptLoop_succ, hstep attempt]
      dsimp only
      rcases hc : handleCatch env i attempt none (errF attempt) with ⟨evs2, co⟩
      rw [hc] at hcf hc0
      dsimp only at hcf hc0
      subst hcf
      dsimp only
      constructor
      · have harith : attempt + 1 + r = attempt + (r + 1) := by omega
        rw [ih1, harith]
      · rw [countSubmits_append, countSubmits_append, hc0, ih2]
        have hone : countSubmits [NetEvent.latestBlockhash i attempt,
            NetEvent.blockHeight i attempt, NetEvent.submit i attempt] = 1 := rfl
        rw [hone]
        omega

lemma execGo_ok (env : Nat → NetEnv) (m : Nat)
    (hstat : ∀ i a s, ∃ st, (env i).getSignatureStatus a s = .ok st) :
    ∀ (txs : List Transaction) (start : Nat),
      ∃ (res : List Settled) (evss : List (List NetEvent)),
        execGo env m start txs = (evss.flatten, .ok res) ∧
        res.length = txs.length ∧
        evss.length = txs.length ∧
        (∀ j es, evss[j]? = some es → ∀ ev ∈ es, ev.txIdx = start + j) ∧
        (∀ (j : Nat) (r : Settled), res[j]? = some r →
          (attemptLoop (env (start + j)) (start + j) m 0 none).2 = .ok r) := by
  intro txs
  induction txs with
  | nil =>
      intro start
      refine ⟨[], [], rfl, rfl, rfl, ?_, ?_⟩
      · intro j es h
        simp at h
      · intro j r h
        simp at h
  | cons tx rest ih =>
      intro start
      obtain ⟨r0, hr0⟩ := attemptLoop_ok (env start) start (hstat start) m 0 none
      obtain ⟨res, evss, hgo, hlr, hle, hidx, hbind⟩ := ih (start + 1)
      rcases hA : attemptLoop (env start) start m 0 none with ⟨evs0, rr⟩
      rw [hA] at hr0
      dsimp only at hr0
      subst hr0
      refine ⟨r0 :: res, evs0 :: evss, ?_, by simp [hlr], by simp [hle], ?_, ?_⟩
      · simp only [execGo]
        rw [hA, hgo]
        simp [List.flatten_cons]
      · intro j es hj ev hev
        cases j with
        | zero =>
            simp only [List.getElem?_cons_zero, Option.some.injEq] at hj
            subst hj
            have hv := attemptLoop_events (env start) start m 0 none ev
              (by rw [hA]; exact hev)
            simpa using hv.1
        | succ jn =>
            simp only [List.getElem?_cons_succ] at hj
            have hv := hidx jn es hj ev hev
            omega
      · intro j r hj
        cases j with
        | zero =>
            simp only [List.getElem?_cons_zero, Option.some.injEq] at hj
            subst hj
            simp only [Nat.add_zero]
            rw [hA]
        | succ jn =>
            simp only [List.getElem?_cons_succ] at hj
            have hv := hbind jn r hj
            have harith : start + 1 + jn = start + (jn + 1) := by omega
            rw [harith] at hv
            exact hv

/-! ### Claims about `executeTransactions` -/

/-- Network behaviour for the C3 scenario: every submission rejects with
the typed expired error (name and `signature` property present, no
message), and every status lookup would report "finalized". -/
def typedExpiredFinalizedEnv : NetEnv :=
  { getLatestBlockhash := fun _ => .ok ("bh", 100),
    getBlockHeight := fun _ => .ok 10,
    sendAndConfirmTransaction := fun _ =>
      .error { name := some "TransactionExpiredBlockheightExceededError",
               signature := some "sigA" },
    getSignatureStatus := fun _ _ => .ok (some "finalized") }

/-- Claim C3 (code bug): the typed-expired reconciliation branch
(src/index.ts lines 111-122) is dead code.  Its guard tests the local
`signature` variable, which is assigned only by a successful
`sendAndConfirmTransaction` (line 103) — and success immediately ends the
loop — so the variable is always null when the catch block runs.  Here
every submission raises the typed expired error carrying signature "sigA"
and `getSignatureStatus` would report "finalized", yet the run makes
maxRetries + 1 = 4 submission attempts, never performs a single status
lookup, and records `rejected` instead of the claimed `fulfilled` with
the captured id. -/
theorem typedExpired_reconciliation_branch_dead :
    (executeTransactions (fun _ => typedExpiredFinalizedEnv) [{ instructions := [] }] 3).2 =
      .ok [.rejected { name := some "TransactionExpiredBlockheightExceededError",
                       signature := some "sigA" }] ∧
    countSubmits (executeTransactions (fun _ => typedExpiredFinalizedEnv)
      [{ instructions := [] }] 3).1 = 4 ∧
    countStatusLookups (executeTransactions (fun _ => typedExpiredFinalizedEnv)
      [{ instructions := [] }] 3).1 = 0 :=
  ⟨by decide, by decide, by decide⟩

/-- Network behaviour refuting claim C4 as stated: the submission fails
with a generic error carrying an embedded signature token, and the status
lookup on it rejects. -/
def statusFailEnv : NetEnv :=
  { getLatestBlockhash := fun _ => .ok ("bh", 100),
    getBlockHeight := fun _ => .ok 10,
    sendAndConfirmTransaction := fun _ =>
      .error { name := some "Error", message := some "failed: Signature abc was dropped" },
    getSignatureStatus := fun _ _ => .error { message := some "status endpoint down" } }

/-- Claim C4 counterexample: the `getSignatureStatus` calls sit inside the
catch block with no handler of their own (src/index.ts lines 115, 131), so
when the status lookup itself rejects, `executeTransactions` rejects as a
whole: with two input transactions the promise rejects with the lookup
error, no outcome list is produced, and the second transaction is never
touched (every traced call belongs to transaction 0). -/
theorem executeTransactions_raises_on_status_lookup_failure :
    (executeTransactions (fun _ => statusFailEnv)
        [{ instructions := [] }, { instructions := [] }] 3).2 =
      .error { message := some "status endpoint down" } ∧
    ∀ ev ∈ (executeTransactions (fun _ => statusFailEnv)
        [{ instructions := [] }, { instructions := [] }] 3).1, ev.txIdx = 0 :=
  ⟨by decide, by decide⟩

/-- Claim C4 amended: every failure of the submission path (blockhash
fetch, height fetch, send-and-confirm) is caught inside the
per-transaction loop, and provided every status lookup itself succeeds,
`executeTransactions` never raises and returns exactly one classified
Fulfilled/Rejected outcome per input transaction; a failure of one
transaction does not abort the processing of the following ones.  (When a
status lookup rejects, the rejection escapes the loop — see the
counterexample.) -/
theorem executeTransactions_settles_under_status_ok (env : Nat → NetEnv)
    (txs : List Transaction) (m : Nat)
    (hstat : ∀ i a s, ∃ st, (env i).getSignatureStatus a s = .ok st) :
    ∃ res : List Settled, (executeTransactions env txs m).2 = .ok res ∧
      res.length = txs.length := by
  obtain ⟨res, evss, hgo, hlr, _, _⟩ := execGo_ok env m hstat txs 0
  refine ⟨res, ?_, hlr⟩
  unfold executeTransactions
  rw [hgo]

/-- Network behaviour for the C4 witness: submissions of transaction 0
always fail with a plain error, transaction 1 succeeds at once; status
lookups always answer. -/
def mixedOutcomeEnv : Nat → NetEnv := fun i =>
  { getLatestBlockhash := fun _ => .ok ("bh", 100),
    getBlockHeight := fun _ => .ok 10,
    sendAndConfirmTransaction := fun _ =>
      if i = 0 then .error { name := some "Error", message := some "node refused" }
      else .ok "sigC",
    getSignatureStatus := fun _ _ => .ok none }

/-- Witness for the amended C4: a run with a failing and a succeeding
transaction settles with one outcome for each. -/
theorem executeTransactions_settles_under_status_ok_witness :
    ∃ res : List Settled,
      (executeTransactions mixedOutcomeEnv
        [{ instructions := [] }, { instructions := [] }] 1).2 = .ok res ∧
      res.length = 2 :=
  executeTransactions_settles_under_status_ok mixedOutcomeEnv
    [{ instructions := [] }, { instructions := [] }] 1
    (fun _ _ _ => ⟨none, rfl⟩)

/-- Claim C5: when every attempt reaches the submission call and the call
raises the typed expired error, and every status lookup answers with a
non-finalized status, the recorded outcome is `rejected` with the error of
the last attempt as cause, and exactly maxRetries + 1 submission attempts
are made. -/
theorem executeTransactions_retries_exhausted (env : Nat → NetEnv) (tx : Transaction)
    (m : Nat) (errF : Nat → JsError)
    (hnet : ∀ a, ∃ bh lv h, (env 0).getLatestBlockhash a = .ok (bh, lv) ∧
      (env 0).getBlockHeight a = .ok h ∧ h ≤ lv)
    (hsend : ∀ a, (env 0).sendAndConfirmTransaction a = .error (errF a))
    (hexp : ∀ a, isTransactionExpiredBlockheightExceededError (errF a) = true)
    (hstat : ∀ a s, ∃ st, (env 0).getSignatureStatus a s = .ok st ∧ st ≠ some "finalized") :
    (executeTransactions env [tx] m).2 = .ok [.rejected (errF m)] ∧
    countSubmits (executeTransactions env [tx] m).1 = m + 1 := by
  have hstep : ∀ a, attemptStep (env 0) 0 a =
      ([.latestBlockhash 0 a, .blockHeight 0 a, .submit 0 a], .error (errF a)) := by
    intro a
    obtain ⟨bh, lv, h, h1, h2, h3⟩ := hnet a
    exact attemptStep_send_error (env 0) 0 a bh lv h (errF a) h1 h2 h3 (hsend a)
  obtain ⟨hres, hcount⟩ := attemptLoop_all_reject (env 0) 0 errF hstep hstat m 0
  rw [Nat.zero_add] at hres
  simp only [executeTransactions, execGo]
  rcases hA : attemptLoop (env 0) 0 m 0 none with ⟨evs, rr⟩
  rw [hA] at hres hcount
  dsimp only at hres hcount
  subst hres
  dsimp only
  constructor
  · rfl
  · rw [List.append_nil]
    exact hcount

/-- Network behaviour for the C5 witness: every submission raises the
typed expired error (with its library message text), heights never
exceed the bound, and every status lookup reports "confirmed" — below
finalized. -/
def allExpiredEnv : NetEnv :=
  { getLatestBlockhash := fun _ => .ok ("bh", 100),
    getBlockHeight := fun _ => .ok 50,
    sendAndConfirmTransaction := fun _ =>
      .error { name := some "TransactionExpiredBlockheightExceededError",
               signature := some "sigB",
               message := some "Signature sigB has expired: block height exceeded." },
    getSignatureStatus := fun _ _ => .ok (some "confirmed") }

/-- Witness for C5 with maxRetries = 2: rejection with the last error and
three submission attempts. -/
theorem executeTransactions_retries_exhausted_witness :
    (executeTransactions (fun _ => allExpiredEnv) [{ instructions := [] }] 2).2 =
      .ok [.rejected { name := some "TransactionExpiredBlockheightExceededError",
                       signature := some "sigB",
                       message := some "Signature sigB has expired: block height exceeded." }] ∧
    countSubmits (executeTransactions (fun _ => allExpiredEnv)
      [{ instructions := [] }] 2).1 = 3 :=
  executeTransactions_retries_exhausted (fun _ => allExpiredEnv) { instructions := [] } 2
    (fun _ => { name := some "TransactionExpiredBlockheightExceededError",
                signature := some "sigB",
                message := some "Signature sigB has expired: block height exceeded." })
    (fun _ => ⟨"bh", 100, 50, rfl, rfl, by decide⟩)
    (fun _ => rfl)
    (fun _ => rfl)
    (fun _ _ => ⟨some "confirmed", rfl, by decide⟩)

/-- Claim C6: when the first submission raises a generic (non-typed)
error whose message matches `/Signature (\w+)/` with token `tok`, and the
status of `tok` is reported "finalized", the outcome is `fulfilled tok`
and the loop exits after the single submission attempt — the remaining
`maxRetries` attempts are never used. -/
theorem executeTransactions_embedded_signature_fulfilled (env : Nat → NetEnv)
    (tx : Transaction) (m : Nat) (e : JsError) (msg tok : String) (bh : String) (lv h : Nat)
    (h1 : (env 0).getLatestBlockhash 0 = .ok (bh, lv))
    (h2 : (env 0).getBlockHeight 0 = .ok h)
    (h3 : h ≤ lv)
    (h4 : (env 0).sendAndConfirmTransaction 0 = .error e)
    (h5 : isTransactionExpiredBlockheightExceededError e = false)
    (h6 : e.message = some msg)
    (h7 : sigMatch msg.toList = some tok)
    (h8 : (env 0).getSignatureStatus 0 tok = .ok (some "finalized")) :
    (executeTransactions env [tx] m).2 = .ok [.fulfilled tok] ∧
    countSubmits (executeTransactions env [tx] m).1 = 1 := by
  have hstep := attemptStep_send_error (env 0) 0 0 bh lv h e h1 h2 h3 h4
  have hmsg : isErrorWithMessage e = true := by
    simp [isErrorWithMessage, h6]
  have hex : extractSignature e = some tok := by
    unfold extractSignature
    simp only [h6]
    exact h7
  have hcatch : handleCatch (env 0) 0 0 none e =
      ([.statusLookup 0 0 tok], .settledNow (.fulfilled tok)) := by
    unfold handleCatch
    simp only [h5, hmsg, if_true, hex, h8]
  have hloop : attemptLoop (env 0) 0 m 0 none =
      ([.latestBlockhash 0 0, .blockHeight 0 0, .submit 0 0] ++ [.statusLookup 0 0 tok],
        .ok (.fulfilled tok)) := by
    cases m with
    | zero =>
        rw [attemptLoop_zero, hstep]
        try dsimp only
        rw [hcatch]
    | succ r =>
        rw [attemptLoop_succ, hstep]
        try dsimp only
        rw [hcatch]
  have hexec : executeTransactions env [tx] m =
      (([.latestBlockhash 0 0, .blockHeight 0 0, .submit 0 0] ++ [.statusLookup 0 0 tok]) ++ [],
        .ok [.fulfilled tok]) := by
    simp only [executeTransactions, execGo]
    rw [hloop]
  constructor
  · rw [hexec]
  · rw [hexec]
    rfl

/-- Network behaviour for the C6 witness: the first submission raises a
generic error whose message embeds the token "abc123", and every status
lookup reports "finalized". -/
def genericSigEnv : NetEnv :=
  { getLatestBlockhash := fun _ => .ok ("bh", 90),
    getBlockHeight := fun _ => .ok 80,
    sendAndConfirmTransaction := fun _ =>
      .error { name := some "Error",
               message := some "Signature abc123 has expired: block height exceeded." },
    getSignatureStatus := fun _ _ => .ok (some "finalized") }

/-- Witness for C6 with maxRetries = 3: fulfilled with the extracted
token after a single submission. -/
theorem executeTransactions_embedded_signature_fulfilled_witness :
    (executeTransactions (fun _ => genericSigEnv) [{ instructions := [] }] 3).2 =
      .ok [.fulfilled "abc123"] ∧
    countSubmits (executeTransactions (fun _ => genericSigEnv)
      [{ instructions := [] }] 3).1 = 1 :=
  executeTransactions_embedded_signature_fulfilled (fun _ => genericSigEnv)
    { instructions := [] } 3
    { name := some "Error",
      message := some "Signature abc123 has expired: block height exceeded." }
    "Signature abc123 has expired: block height exceeded." "abc123" "bh" 90 80
    rfl rfl (by decide) rfl rfl rfl (by decide) rfl

/-- Network behaviour refuting claim C7 as stated: a generic submission
error carries an embedded token, and the status lookup on it rejects. -/
def statusFailSingleEnv : NetEnv :=
  { getLatestBlockhash := fun _ => .ok ("hh", 70),
    getBlockHeight := fun _ => .ok 60,
    sendAndConfirmTransaction := fun _ =>
      .error { name := some "SendTransactionError",
               message := some "failed to send: Signature zz9 invalid response" },
    getSignatureStatus := fun _ _ => .error { name := some "FetchError" } }

/-- Claim C7 counterexample: for this one-transaction input the function
rejects with the status-lookup error instead of returning a list, so no
outcome at all — let alone exactly one per transaction — is produced. -/
theorem executeTransactions_missing_outcome_on_status_failure :
    (executeTransactions (fun _ => statusFailSingleEnv) [{ instructions := [] }] 3).2 =
      .error { name := some "FetchError" } := by decide

/-- Claim C7 amended: whenever the status lookups themselves answer (the
situation claim C4 carves out), `executeTransactions` produces exactly
one terminal outcome per input transaction, and the output list is in
input order: its j-th entry is precisely the terminal outcome that the
per-transaction retry loop (`attemptLoop`, the submission state machine)
computes for the j-th transaction — so a run whose first transaction
fails and whose second succeeds yields `[rejected, fulfilled]` in that
order.  Processing is strictly sequential: the network trace is the
concatenation of per-transaction segments in input order, so no call of
transaction i + 1 precedes the terminal outcome of transaction i. -/
theorem executeTransactions_sequential (env : Nat → NetEnv) (txs : List Transaction) (m : Nat)
    (hstat : ∀ i a s, ∃ st, (env i).getSignatureStatus a s = .ok st) :
    ∃ (res : List Settled) (evss : List (List NetEvent)),
      executeTransactions env txs m = (evss.flatten, .ok res) ∧
      res.length = txs.length ∧
      evss.length = txs.length ∧
      (∀ (j : Nat) (es : List NetEvent), evss[j]? = some es →
        ∀ ev ∈ es, NetEvent.txIdx ev = j) ∧
      (∀ (j : Nat) (r : Settled), res[j]? = some r →
        (attemptLoop (env j) j m 0 none).2 = .ok r) := by
  obtain ⟨res, evss, hgo, hl1, hl2, hl3, hl4⟩ := execGo_ok env m hstat txs 0
  refine ⟨res, evss, ?_, hl1, hl2, ?_, ?_⟩
  · unfold executeTransactions
    exact hgo
  · intro j es hj ev hev
    have := hl3 j es hj ev hev
    omega
  · intro j r hj
    have hv := hl4 j r hj
    rw [Nat.zero_add] at hv
    exact hv

/-- Network behaviour for the C7 witness. -/
def seqRunEnv : Nat → NetEnv := fun i =>
  { getLatestBlockhash := fun _ => .ok ("bh", 40),
    getBlockHeight := fun _ => .ok 30,
    sendAndConfirmTransaction := fun _ =>
      if i = 0 then .error { name := some "Error", message := some "busy" } else .ok "sigD",
    getSignatureStatus := fun _ _ => .ok (some "processed") }

/-- Witness for C7 on a two-transaction run whose first transaction
exhausts its retries while the second succeeds at once: the outcome list
has one entry per transaction, and entry j is the j-th transaction's own
terminal outcome, here rejected for transaction 0 and fulfilled for
transaction 1. -/
theorem executeTransactions_sequential_witness :
    ∃ (res : List Settled) (evss : List (List NetEvent)),
      executeTransactions seqRunEnv [{ instructions := [] }, { instructions := [] }] 1 =
        (evss.flatten, .ok res) ∧
      res.length = 2 ∧
      evss.length = 2 ∧
      (∀ (j : Nat) (es : List NetEvent), evss[j]? = some es →
        ∀ ev ∈ es, NetEvent.txIdx ev = j) ∧
      (∀ (j : Nat) (r : Settled), res[j]? = some r →
        (attemptLoop (seqRunEnv j) j 1 0 none).2 = .ok r) :=
  executeTransactions_sequential seqRunEnv [{ instructions := [] }, { instructions := [] }] 1
    (fun _ _ _ => ⟨some "processed", rfl⟩)

/-- Claim C8: when the first submission call succeeds with id `s`, the
recorded outcome is `fulfilled s`, the run for that transaction consists
of exactly the three submission-path calls of attempt one, and no status
lookup (reconciliation) is ever made. -/
theorem executeTransactions_first_attempt_success (env : Nat → NetEnv) (tx : Transaction)
    (m : Nat) (bh : String) (lv h : Nat) (s : String)
    (h1 : (env 0).getLatestBlockhash 0 = .ok (bh, lv))
    (h2 : (env 0).getBlockHeight 0 = .ok h)
    (h3 : h ≤ lv)
    (h4 : (env 0).sendAndConfirmTransaction 0 = .ok s) :
    executeTransactions env [tx] m =
      ([.latestBlockhash 0 0, .blockHeight 0 0, .submit 0 0] ++ [], .ok [.fulfilled s]) ∧
    countStatusLookups (executeTransactions env [tx] m).1 = 0 := by
  have hstep := attemptStep_send_ok (env 0) 0 0 bh lv h s h1 h2 h3 h4
  have hloop : attemptLoop (env 0) 0 m 0 none =
      ([.latestBlockhash 0 0, .blockHeight 0 0, .submit 0 0], .ok (.fulfilled s)) := by
    cases m with
    | zero => rw [attemptLoop_zero, hstep]
    | succ r => rw [attemptLoop_succ, hstep]
  have hexec : executeTransactions env [tx] m =
      ([.latestBlockhash 0 0, .blockHeight 0 0, .submit 0 0] ++ [], .ok [.fulfilled s]) := by
    simp only [executeTransactions, execGo]
    rw [hloop]
  constructor
  · exact hexec
  · rw [hexec]
    rfl

/-- Network behaviour for the C8 witness. -/
def firstTryEnv : NetEnv :=
  { getLatestBlockhash := fun _ => .ok ("bh", 20),
    getBlockHeight := fun _ => .ok 15,
    sendAndConfirmTransaction := fun _ => .ok "sigE",
    getSignatureStatus := fun _ _ => .ok (some "finalized") }

/-- Witness for C8 with maxRetries = 3. -/
theorem executeTransactions_first_attempt_success_witness :
    executeTransactions (fun _ => firstTryEnv) [{ instructions := [] }] 3 =
      ([.latestBlockhash 0 0, .blockHeight 0 0, .submit 0 0] ++ [], .ok [.fulfilled "sigE"]) ∧
    countStatusLookups (executeTransactions (fun _ => firstTryEnv)
      [{ instructions := [] }] 3).1 = 0 :=
  executeTransactions_first_attempt_success (fun _ => firstTryEnv) { instructions := [] } 3
    "bh" 20 15 "sigE" rfl rfl (by decide) rfl

/-- Claim C9: in an attempt whose fetched current height exceeds the
freshness token expiry height, `sendAndConfirmTransaction` is not invoked
in that attempt (no `submit` event with that attempt number ever appears
in the loop trace), the attempt takes the local-expiry error path, and
that path counts against the retry bound: with no retries remaining the
result is the rejection with the local expiry error, otherwise the loop
proceeds to the next attempt. -/
theorem heightExceeded_skips_submission (env : NetEnv) (i a : Nat) (sig : Option String)
    (bh : String) (lv h : Nat)
    (h1 : env.getLatestBlockhash a = .ok (bh, lv))
    (h2 : env.getBlockHeight a = .ok h)
    (h3 : lv < h) :
    attemptStep env i a =
      ([.latestBlockhash i a, .blockHeight i a], .error (expiredHeightError i h lv)) ∧
    (∀ remaining, NetEvent.submit i a ∉ (attemptLoop env i remaining a sig).1) ∧
    attemptLoop env i 0 a sig =
      ([.latestBlockhash i a, .blockHeight i a], .ok (.rejected (expiredHeightError i h lv))) ∧
    (∀ r, attemptLoop env i (r + 1) a sig =
      ([.latestBlockhash i a, .blockHeight i a] ++ (attemptLoop env i r (a + 1) sig).1,
        (attemptLoop env i r (a + 1) sig).2)) := by
  have hstep := attemptStep_height_exceeded env i a bh lv h h1 h2 h3
  have hcatch : handleCatch env i a sig (expiredHeightError i h lv) =
      ([], .fallthrough (expiredHeightError i h lv)) := by
    unfold handleCatch
    rcases sig with _ | s2 <;>
      simp only [expiredHeightError_not_typed, expiredHeightError_has_message, if_true,
        expiredHeightError_extract]
  have h0 : attemptLoop env i 0 a sig =
      ([.latestBlockhash i a, .blockHeight i a], .ok (.rejected (expiredHeightError i h lv))) := by
    rw [attemptLoop_zero, hstep]
    try dsimp only
    rw [hcatch]
    simp
  have hS : ∀ r, attemptLoop env i (r + 1) a sig =
      ([.latestBlockhash i a, .blockHeight i a] ++ (attemptLoop env i r (a + 1) sig).1,
        (attemptLoop env i r (a + 1) sig).2) := by
    intro r
    rw [attemptLoop_succ, hstep]
    try dsimp only
    rw [hcatch]
    simp
  refine ⟨hstep, ?_, h0, hS⟩
  intro remaining
  cases remaining with
  | zero =>
      rw [h0]
      simp
  | succ r =>
      rw [hS r]
      intro hmem
      rcases List.mem_append.mp hmem with hm | hm
      · simp at hm
      · have hidx := (attemptLoop_events env i r (a + 1) sig (NetEvent.submit i a) hm).2
        simp only [NetEvent.attemptIdx] at hidx
        omega

/-- Network behaviour for the C9 witness: the reported height 9 exceeds
the expiry bound 5. -/
def heightLagEnv : NetEnv :=
  { getLatestBlockhash := fun _ => .ok ("bh", 5),
    getBlockHeight := fun _ => .ok 9,
    sendAndConfirmTransaction := fun _ => .ok "sigF",
    getSignatureStatus := fun _ _ => .ok none }

/-- Witness for C9: with one retry remaining no submission happens, and
with none remaining the attempt rejects locally. -/
theorem heightExceeded_skips_submission_witness :
    NetEvent.submit 0 0 ∉ (attemptLoop heightLagEnv 0 1 0 none).1 ∧
    attemptLoop heightLagEnv 0 0 0 none =
      ([.latestBlockhash 0 0, .blockHeight 0 0], .ok (.rejected (expiredHeightError 0 9 5))) :=
  ⟨(heightExceeded_skips_submission heightLagEnv 0 0 none "bh" 5 9 rfl rfl (by decide)).2.1 1,
   (heightExceeded_skips_submission heightLagEnv 0 0 none "bh" 5 9 rfl rfl (by decide)).2.2.1⟩

end Marek
